import Mathlib

/-!
Shallow embedding of the follow-me-drone core components
(command channel, gesture state machine, PID controller, tracking
controller) together with proofs of the specification's claims.

Python floats are modelled as rationals, Python ints as `Int`/`Nat`,
and the wall clock as an explicit rational timestamp parameter.
-/

namespace FollowMe

/-- Python's `int()` truncates toward zero. -/
def ratTrunc (q : ℚ) : ℤ := if 0 ≤ q then ⌊q⌋ else ⌈q⌉

/-- The last `n` elements of a list; `list(deque(..., maxlen=n))` after
appends, and Python's `lst[-n:]` slice (for `n > 0`). -/
def rtake {α : Type*} (n : ℕ) (l : List α) : List α := l.drop (l.length - n)

/-- Append for `deque(maxlen=m)`: keep the last `m` elements of `l ++ [x]`. -/
def dequeAppend {α : Type*} (m : ℕ) (l : List α) (x : α) : List α :=
  rtake m (l ++ [x])

theorem length_rtake {α : Type*} (n : ℕ) (l : List α) :
    (rtake n l).length = min n l.length := by
  simp [rtake]
  omega

/- ## Commands (src/followme/commands.py) -/

/-- The `Command(IntEnum)`: CIRCLE_MOTION = 1, TAKE_PHOTO = 2. -/
inductive Command
  | CIRCLE_MOTION
  | TAKE_PHOTO
deriving DecidableEq, Repr

/-- Model of `Command.from_snap_count`: `cls(count)` succeeds exactly on the enum
values 1 and 2; a `ValueError` (any other integer) is logged and `None`
is returned. -/
def Command.fromSnapCount (count : ℤ) : Option Command :=
  if count = 1 then some .CIRCLE_MOTION
  else if count = 2 then some .TAKE_PHOTO
  else none

/- ## Command channel (src/followme/ipc.py) -/

/-- Outcome of `open(path) / pickle.load(f)` in `read_new_commands`:
the file may be missing (`FileNotFoundError`), unreadable
(`pickle.UnpicklingError` / `EOFError`), or yield the stored list. -/
inductive ReadResult
  | missing
  | corrupt
  | ok (snaps : List ℤ)
deriving DecidableEq

/-- The `while self._read_index < len(all_snaps)` loop body: each visited
snap count is mapped through `Command.from_snap_count`, and only non-None
results are appended to `new_commands`. -/
def readLoopAux : List ℤ → List Command
  | [] => []
  | snap :: rest =>
    match Command.fromSnapCount snap with
    | some cmd => cmd :: readLoopAux rest
    | none => readLoopAux rest

/-- Model of `CommandChannel.read_new_commands`, as a function of the file-read
outcome and the reader cursor `self._read_index`.  On `FileNotFoundError`
or unpickling failure it returns `[]` with the cursor untouched; otherwise
the loop visits `snaps.drop readIndex` and leaves the cursor at
`max readIndex snaps.length` (unchanged when already past the end). -/
def readNewCommands (file : ReadResult) (readIndex : ℕ) : ℕ × List Command :=
  match file with
  | .missing => (readIndex, [])
  | .corrupt => (readIndex, [])
  | .ok snaps => (max readIndex snaps.length, readLoopAux (snaps.drop readIndex))

/-- Model of `CommandChannel.write_commands`: atomically replaces the backing file
with the full list, so a subsequent successful read sees exactly it. -/
def writeCommands (commands : List ℤ) : ReadResult := .ok commands

theorem readLoopAux_eq_filterMap (l : List ℤ) :
    readLoopAux l = l.filterMap Command.fromSnapCount := by
  induction l with
  | nil => rfl
  | cons snap rest ih =>
    cases h : Command.fromSnapCount snap <;>
      simp [readLoopAux, List.filterMap_cons, h, ih]

/-- C1 (counterexample): with persisted sequence `[3]` and cursor `0`
there is one new element, but `read_new_commands` returns zero entries —
the unrecognized integer `3` is logged and skipped, not returned as a
marker entry — while the cursor still advances to the end. -/
theorem C1_counterexample :
    readNewCommands (.ok [3]) 0 = (1, []) ∧
      (readNewCommands (.ok [3]) 0).2.length ≠ ([3] : List ℤ).length := by
  decide

/-- C1 (amended): for every persisted sequence `S` and cursor `c < |S|`,
`read_new_commands` returns the recognized commands of `S.drop c` in
order — unrecognized integers are skipped — and advances the cursor to
`|S|`. -/
theorem C1_read_maps_and_skips (S : List ℤ) (c : ℕ) (h : c < S.length) :
    readNewCommands (.ok S) c = (S.length, (S.drop c).filterMap Command.fromSnapCount) := by
  simp [readNewCommands, readLoopAux_eq_filterMap, Nat.max_eq_right (Nat.le_of_lt h)]

/-- C1 witness: the amended statement at `S = [1, 5, 2]`, `c = 0`. -/
theorem C1_witness :
    readNewCommands (.ok [1, 5, 2]) 0 =
      (3, [Command.CIRCLE_MOTION, Command.TAKE_PHOTO]) :=
  (C1_read_maps_and_skips [1, 5, 2] 0 (by decide)).trans (by decide)

/-- C3: writing `[1,2,1]` and reading with a fresh cursor yields exactly
`[CIRCLE_MOTION, TAKE_PHOTO, CIRCLE_MOTION]` with the cursor at 3, and an
immediate second read from the advanced cursor yields `[]`. -/
theorem C3_roundtrip :
    readNewCommands (writeCommands [1, 2, 1]) 0 =
      (3, [Command.CIRCLE_MOTION, Command.TAKE_PHOTO, Command.CIRCLE_MOTION]) ∧
    readNewCommands (writeCommands [1, 2, 1])
        (readNewCommands (writeCommands [1, 2, 1]) 0).1 =
      ((readNewCommands (writeCommands [1, 2, 1]) 0).1, []) := by
  decide

/-- C8: when the backing file is missing or its contents are corrupt,
`read_new_commands` returns the empty list and leaves the reader cursor
unchanged (the exception handlers return before the loop runs). -/
theorem C8_read_errors_nonfatal (c : ℕ) :
    readNewCommands .missing c = (c, []) ∧ readNewCommands .corrupt c = (c, []) :=
  ⟨rfl, rfl⟩

/- ## PID controller (src/followme/pid.py) -/

/-- The `PIDConfig` gains (config.py defaults 0.2, 0.04, 0.005). -/
structure PIDConfig where
  kp : ℚ
  ki : ℚ
  kd : ℚ
deriving DecidableEq

def defaultPIDConfig : PIDConfig := ⟨1/5, 1/25, 1/200⟩

/-- Mutable internal state of `PIDController`:
`_integral`, `_prev_error`, `_last_time`. -/
structure PIDState where
  integral : ℚ
  prev_error : Option ℚ
  last_time : Option ℚ
deriving DecidableEq

/-- Fresh `PIDController` internal state (also the state after `reset()`). -/
def initPid : PIDState := ⟨0, none, none⟩

/-- Model of `PIDController.update(error, dt)`.  `now` is the value the call reads
from the monotonic clock; when `dt` is not supplied it becomes
`now - _last_time` (0 on the first call).  The integral is accumulated
first and then clamped to `±integral_limit` when configured; the
derivative term is 0 without a previous error or when `dt ≤ 0`; the final
output is clamped to `output_limits`. -/
def pidUpdate (cfg : PIDConfig) (limits : ℚ × ℚ) (ilim : Option ℚ)
    (st : PIDState) (error : ℚ) (dt? : Option ℚ) (now : ℚ) : PIDState × ℚ :=
  let dt : ℚ :=
    match dt? with
    | some d => d
    | none =>
      match st.last_time with
      | some t => now - t
      | none => 0
  let pTerm := cfg.kp * error
  let integral0 := st.integral + error * dt
  let integral :=
    match ilim with
    | none => integral0
    | some lim => max (-lim) (min lim integral0)
  let iTerm := cfg.ki * integral
  let dTerm :=
    match st.prev_error with
    | some pe => if dt > 0 then cfg.kd * (error - pe) / dt else 0
    | none => 0
  let output := pTerm + iTerm + dTerm
  (⟨integral, some error, some now⟩, max limits.1 (min limits.2 output))

/-- The successive internal states along a sequence of `update` calls,
each input a triple `(error, dt, now)` with `dt` supplied explicitly. -/
def pidRunStates (cfg : PIDConfig) (limits : ℚ × ℚ) (ilim : Option ℚ)
    (st : PIDState) : List (ℚ × ℚ × ℚ) → List PIDState
  | [] => []
  | (e, dt, t) :: rest =>
    let st' := (pidUpdate cfg limits ilim st e (some dt) t).1
    st' :: pidRunStates cfg limits ilim st' rest

/-- The clamped-integral trajectory as a pure fold over `(error, dt)`
pairs, abstracting the integral component of `pidRunStates`. -/
def intTraj (lim i : ℚ) : List (ℚ × ℚ) → List ℚ
  | [] => []
  | (e, dt) :: rest => max (-lim) (min lim (i + e * dt)) :: intTraj lim (max (-lim) (min lim (i + e * dt))) rest

theorem pidRunStates_integral_map (cfg : PIDConfig) (limits : ℚ × ℚ) (lim : ℚ)
    (inputs : List (ℚ × ℚ × ℚ)) :
    ∀ st : PIDState,
      (pidRunStates cfg limits (some lim) st inputs).map (·.integral) =
        intTraj lim st.integral (inputs.map (fun x => (x.1, x.2.1))) := by
  induction inputs with
  | nil => intro st; rfl
  | cons p rest ih =>
    intro st
    obtain ⟨e, dt, t⟩ := p
    have hI : ((pidUpdate cfg limits (some lim) st e (some dt) t).1).integral =
        max (-lim) (min lim (st.integral + e * dt)) := rfl
    simp only [pidRunStates, List.map_cons, intTraj, ih, hI]

/-- One clamped integral step in the nonnegative regime moves up within
`[0, lim]` and sticks at `lim` once there. -/
theorem integral_step_nonneg (lim i e dt : ℚ) (hlim : 0 ≤ lim)
    (h0 : 0 ≤ i) (h1 : i ≤ lim) (he : 0 ≤ e) (hdt : 0 ≤ dt) :
    0 ≤ max (-lim) (min lim (i + e * dt)) ∧
    max (-lim) (min lim (i + e * dt)) ≤ lim ∧
    i ≤ max (-lim) (min lim (i + e * dt)) ∧
    (i = lim → max (-lim) (min lim (i + e * dt)) = lim) := by
  have hed : 0 ≤ e * dt := mul_nonneg he hdt
  rcases le_total (i + e * dt) lim with hc | hc
  · rw [min_eq_right hc, max_eq_right (by linarith)]
    exact ⟨by linarith, hc, by linarith, fun h => by linarith⟩
  · rw [min_eq_left hc, max_eq_right (by linarith)]
    exact ⟨hlim, le_rfl, h1, fun _ => rfl⟩

/-- Mirror of `integral_step_nonneg` in the nonpositive regime. -/
theorem integral_step_nonpos (lim i e dt : ℚ) (hlim : 0 ≤ lim)
    (h0 : -lim ≤ i) (h1 : i ≤ 0) (he : e ≤ 0) (hdt : 0 ≤ dt) :
    -lim ≤ max (-lim) (min lim (i + e * dt)) ∧
    max (-lim) (min lim (i + e * dt)) ≤ 0 ∧
    max (-lim) (min lim (i + e * dt)) ≤ i ∧
    (i = -lim → max (-lim) (min lim (i + e * dt)) = -lim) := by
  have hed : e * dt ≤ 0 := mul_nonpos_of_nonpos_of_nonneg he hdt
  have hmin : min lim (i + e * dt) = i + e * dt := min_eq_right (by linarith)
  rw [hmin]
  rcases le_total (-lim) (i + e * dt) with hc | hc
  · rw [max_eq_right hc]
    exact ⟨hc, by linarith, by linarith, fun h => by linarith⟩
  · rw [max_eq_left hc]
    exact ⟨le_rfl, by linarith, by linarith, fun _ => rfl⟩

/-- Nonnegative-regime trajectory: in-range, monotone, sticky at `lim`. -/
theorem traj_nonneg (lim : ℚ) (hlim : 0 ≤ lim) :
    ∀ (inputs : List (ℚ × ℚ)) (i : ℚ), 0 ≤ i → i ≤ lim →
      (∀ x ∈ inputs, 0 ≤ x.1 ∧ 0 ≤ x.2) →
      List.Chain' (fun a b => |a| ≤ |b| ∧ (|a| = lim → |b| = lim)) (i :: intTraj lim i inputs) ∧
      ∀ x ∈ i :: intTraj lim i inputs, 0 ≤ x ∧ x ≤ lim := by
  intro inputs
  induction inputs with
  | nil =>
    intro i h0 h1 _
    refine ⟨List.chain'_singleton i, ?_⟩
    intro x hx
    rcases List.mem_cons.mp hx with h | h
    · exact h ▸ ⟨h0, h1⟩
    · simp [intTraj] at h
  | cons p rest ih =>
    intro i h0 h1 hin
    obtain ⟨e, dt⟩ := p
    have hp := hin (e, dt) (List.mem_cons_self _ _)
    obtain ⟨s0, s1, s2, s3⟩ := integral_step_nonneg lim i e dt hlim h0 h1 hp.1 hp.2
    have ihr := ih (max (-lim) (min lim (i + e * dt))) s0 s1
      (fun x hx => hin x (List.mem_cons_of_mem _ hx))
    refine ⟨?_, ?_⟩
    · rw [intTraj, List.chain'_cons]
      refine ⟨⟨?_, ?_⟩, ihr.1⟩
      · rw [abs_of_nonneg h0, abs_of_nonneg s0]; exact s2
      · intro hEq
        rw [abs_of_nonneg h0] at hEq
        rw [abs_of_nonneg s0]
        exact s3 hEq
    · intro x hx
      rw [intTraj] at hx
      rcases List.mem_cons.mp hx with h | h
      · simp [h, h0, h1]
      · exact ihr.2 x h

/-- Nonpositive-regime trajectory: in-range, `|·|`-monotone, sticky. -/
theorem traj_nonpos (lim : ℚ) (hlim : 0 ≤ lim) :
    ∀ (inputs : List (ℚ × ℚ)) (i : ℚ), -lim ≤ i → i ≤ 0 →
      (∀ x ∈ inputs, x.1 ≤ 0 ∧ 0 ≤ x.2) →
      List.Chain' (fun a b => |a| ≤ |b| ∧ (|a| = lim → |b| = lim)) (i :: intTraj lim i inputs) ∧
      ∀ x ∈ i :: intTraj lim i inputs, -lim ≤ x ∧ x ≤ 0 := by
  intro inputs
  induction inputs with
  | nil =>
    intro i h0 h1 _
    refine ⟨List.chain'_singleton i, ?_⟩
    intro x hx
    rcases List.mem_cons.mp hx with h | h
    · exact h ▸ ⟨h0, h1⟩
    · simp [intTraj] at h
  | cons p rest ih =>
    intro i h0 h1 hin
    obtain ⟨e, dt⟩ := p
    have hp := hin (e, dt) (List.mem_cons_self _ _)
    obtain ⟨s0, s1, s2, s3⟩ := integral_step_nonpos lim i e dt hlim h0 h1 hp.1 hp.2
    have ihr := ih (max (-lim) (min lim (i + e * dt))) s0 s1
      (fun x hx => hin x (List.mem_cons_of_mem _ hx))
    refine ⟨?_, ?_⟩
    · rw [intTraj, List.chain'_cons]
      refine ⟨⟨?_, ?_⟩, ihr.1⟩
      · rw [abs_of_nonpos h1, abs_of_nonpos s1]; linarith
      · intro hEq
        rw [abs_of_nonpos h1] at hEq
        rw [abs_of_nonpos s1, s3 (by linarith)]
        linarith
    · intro x hx
      rw [intTraj] at hx
      rcases List.mem_cons.mp hx with h | h
      · simp [h, h0, h1]
      · exact ihr.2 x h

/-- C7: for every sequence of `update` calls with errors of constant sign
and nonnegative `dt`, starting from a fresh controller with
`integral_limit = lim ≥ 0` configured, the integral's absolute value is
monotonically non-decreasing call after call, never exceeds `lim`, and
once it equals `lim` it stays there (anti-windup clamp). -/
theorem C7_integral_antiwindup (cfg : PIDConfig) (limits : ℚ × ℚ) (lim : ℚ)
    (hlim : 0 ≤ lim) (inputs : List (ℚ × ℚ × ℚ))
    (hdt : ∀ x ∈ inputs, 0 ≤ x.2.1)
    (hsign : (∀ x ∈ inputs, 0 ≤ x.1) ∨ (∀ x ∈ inputs, x.1 ≤ 0)) :
    List.Chain' (fun a b => |a| ≤ |b| ∧ (|a| = lim → |b| = lim))
      ((initPid :: pidRunStates cfg limits (some lim) initPid inputs).map (·.integral)) ∧
    ∀ x ∈ (initPid :: pidRunStates cfg limits (some lim) initPid inputs).map (·.integral),
      |x| ≤ lim := by
  have hmap : (initPid :: pidRunStates cfg limits (some lim) initPid inputs).map (·.integral) =
      (0 : ℚ) :: intTraj lim 0 (inputs.map (fun x => (x.1, x.2.1))) := by
    rw [List.map_cons, pidRunStates_integral_map]
    rfl
  rw [hmap]
  rcases hsign with hpos | hneg
  · have h := traj_nonneg lim hlim (inputs.map (fun x => (x.1, x.2.1))) 0 le_rfl hlim ?_
    · exact ⟨h.1, fun x hx => by rw [abs_of_nonneg (h.2 x hx).1]; exact (h.2 x hx).2⟩
    · intro x hx
      obtain ⟨y, hy, rfl⟩ := List.mem_map.mp hx
      exact ⟨hpos y hy, hdt y hy⟩
  · have h := traj_nonpos lim hlim (inputs.map (fun x => (x.1, x.2.1))) 0 (by linarith) le_rfl ?_
    · exact ⟨h.1, fun x hx => by rw [abs_of_nonpos (h.2 x hx).2]; linarith [(h.2 x hx).1]⟩
    · intro x hx
      obtain ⟨y, hy, rfl⟩ := List.mem_map.mp hx
      exact ⟨hneg y hy, hdt y hy⟩

/-- C7 witness: two unit-error steps with `dt = 1` against `lim = 3/2`:
the integral goes `0, 1, 3/2` — non-decreasing, bounded, clamped. -/
theorem C7_witness :
    List.Chain' (fun a b => |a| ≤ |b| ∧ (|a| = (3/2 : ℚ) → |b| = (3/2 : ℚ)))
      ((initPid :: pidRunStates defaultPIDConfig (-100, 100) (some (3/2)) initPid
        [(1, 1, 0), (1, 1, 1)]).map (·.integral)) ∧
    ∀ x ∈ (initPid :: pidRunStates defaultPIDConfig (-100, 100) (some (3/2)) initPid
        [(1, 1, 0), (1, 1, 1)]).map (·.integral), |x| ≤ (3/2 : ℚ) :=
  C7_integral_antiwindup defaultPIDConfig (-100, 100) (3/2) (by norm_num)
    [(1, 1, 0), (1, 1, 1)] (by decide) (Or.inl (by decide))

/- ## Tracking controller (src/followme/drone_controller.py) -/

/-- Fields of `DroneConfig` that the tracking controller and the consumer
loop use (config.py defaults 960, 720, 220). -/
structure DroneConfig where
  frame_width : ℕ
  frame_height : ℕ
  height_limit : ℤ
deriving DecidableEq

def defaultDroneConfig : DroneConfig := ⟨960, 720, 220⟩

/-- Fields of `TrackingConfig` used by `FaceTracker` (config.py defaults). -/
structure TrackingConfig where
  pid : PIDConfig
  face_area_min : ℤ
  face_area_max : ℤ
  yaw_speed_limit : ℤ
  vertical_speed_limit : ℤ
  vertical_speed_scale : ℚ
  forward_speed : ℤ
  backward_speed : ℤ
  target_x_fraction : ℚ
  target_y_fraction : ℚ
  lost_face_threshold : ℕ
  search_rotation_speed : ℤ
deriving DecidableEq

def defaultTrackingConfig : TrackingConfig :=
  ⟨defaultPIDConfig, 14000, 15000, 100, 40, 1/2, 20, -20, 1/2, 1/4, 15, 40⟩

/-- The `FaceInfo` record from face_detector.py. -/
structure FaceInfo where
  center_x : ℤ
  center_y : ℤ
  area : ℤ
  bbox : ℤ × ℤ × ℤ × ℤ
deriving DecidableEq

/-- Mutable state of `FaceTracker`: the two per-axis PID states, the
center-history deque (`maxlen = drone_config.frame_width`), and
`_last_known_direction` (the literal `"+"` / `"-"` strings). -/
structure TrackerState where
  yawPid : PIDState
  vertPid : PIDState
  center_history : List (ℤ × ℤ)
  last_known_direction : String
deriving DecidableEq

/-- Source line `self._center_history_size = 20  # Use fixed size for lost-face detection` -/
def centerHistorySize : ℕ := 20

/-- Model of `FaceTracker.__init__`: fresh PID states, empty history, `"+"`. -/
def initTracker : TrackerState := ⟨initPid, initPid, [], "+"⟩

/-- Source line `self._target_x = int(self._frame_w * config.target_x_fraction)`. -/
def targetX (cfg : TrackingConfig) (dcfg : DroneConfig) : ℤ :=
  ratTrunc ((dcfg.frame_width : ℚ) * cfg.target_x_fraction)

/-- Source line `self._target_y = int(self._frame_h * config.target_y_fraction)`. -/
def targetY (cfg : TrackingConfig) (dcfg : DroneConfig) : ℤ :=
  ratTrunc ((dcfg.frame_height : ℚ) * cfg.target_y_fraction)

/-- Model of `FaceTracker._compute_forward_back`: three-way bang-bang on area. -/
def computeForwardBack (cfg : TrackingConfig) (area : ℤ) : ℤ :=
  if cfg.face_area_min ≤ area ∧ area ≤ cfg.face_area_max then 0
  else if area > cfg.face_area_max then cfg.backward_speed
  else if area > 0 then cfg.forward_speed
  else 0

/-- The predicate of `sum(1 for x, y in recent if x == 0 and y == 0)`. -/
def isLostEntry (p : ℤ × ℤ) : Bool := decide (p.1 = 0 ∧ p.2 = 0)

/-- Model of `FaceTracker._handle_lost_face`: append the `(0, 0)` sentinel, count
sentinels among the last `_center_history_size` entries, and either
rotate at `search_rotation_speed` signed by `_last_known_direction` (when
the count exceeds `lost_face_threshold`) or hold all axes at 0. -/
def handleLost (cfg : TrackingConfig) (dcfg : DroneConfig) (st : TrackerState) :
    TrackerState × (ℤ × ℤ × ℤ × ℤ) :=
  let st' := { st with
    center_history := dequeAppend dcfg.frame_width st.center_history (0, 0) }
  let recent := rtake centerHistorySize st'.center_history
  let lostCount := recent.countP isLostEntry
  let out : ℤ × ℤ × ℤ × ℤ :=
    if lostCount > cfg.lost_face_threshold then
      (0, 0, 0,
        if st.last_known_direction = "+" then cfg.search_rotation_speed
        else -cfg.search_rotation_speed)
    else (0, 0, 0, 0)
  (st', out)

/-- Model of `FaceTracker.compute_control`.  `droneHeight` is what
`drone.get_height()` returns this cycle (the source compares it against
`face_area_max` but the branch body is `pass`, so it has no effect);
`now` is the monotonic-clock reading the two PID updates observe.
Returns the updated tracker state and `(lr, fb, ud, yaw)`. -/
def computeControl (cfg : TrackingConfig) (dcfg : DroneConfig)
    (face : Option FaceInfo) (droneHeight : ℤ) (now : ℚ) (st : TrackerState) :
    TrackerState × (ℤ × ℤ × ℤ × ℤ) :=
  match face with
  | none => handleLost cfg dcfg st
  | some f =>
    let dir := if f.center_x < ((dcfg.frame_width / 2 : ℕ) : ℤ) then "-" else "+"
    let hist := dequeAppend dcfg.frame_width st.center_history (f.center_x, f.center_y)
    let xError : ℚ := ((f.center_x - targetX cfg dcfg : ℤ) : ℚ)
    let yError : ℚ := ((f.center_y - targetY cfg dcfg : ℤ) : ℚ)
    let yawRes := pidUpdate cfg.pid
      (-(cfg.yaw_speed_limit : ℚ), (cfg.yaw_speed_limit : ℚ)) none st.yawPid xError none now
    let yawSpeed := ratTrunc yawRes.2
    let vertRes := pidUpdate cfg.pid
      (-(cfg.vertical_speed_limit : ℚ), (cfg.vertical_speed_limit : ℚ)) none st.vertPid yError none now
    let ySpeed := ratTrunc (min (cfg.vertical_speed_limit : ℚ)
      (max (-(cfg.vertical_speed_limit : ℚ)) (-cfg.vertical_speed_scale * vertRes.2)))
    let fb := computeForwardBack cfg f.area
    ({ yawPid := yawRes.1, vertPid := vertRes.1,
       center_history := hist, last_known_direction := dir },
     (0, fb, ySpeed, yawSpeed))

/-- Model of `FaceTracker.reset`: reset both PID controllers and clear the
history; `_last_known_direction` is not touched. -/
def resetTracker (st : TrackerState) : TrackerState :=
  { st with yawPid := initPid, vertPid := initPid, center_history := [] }

/-- The height-safety enforcement of scripts/run_tracker.py (lines
67–72): when `drone.get_height() > config.drone.height_limit` the loop
sends a forced descent `(0, 0, -10, 0)` instead of the tracker output. -/
def heightOverride (height limit : ℤ) (ctl : ℤ × ℤ × ℤ × ℤ) : ℤ × ℤ × ℤ × ℤ :=
  if height > limit then (0, 0, -10, 0) else ctl

/-- Run `n` consecutive `compute_control` cycles with no observation. -/
def runLost (cfg : TrackingConfig) (dcfg : DroneConfig) : ℕ → TrackerState → TrackerState
  | 0, st => st
  | n + 1, st => runLost cfg dcfg n (computeControl cfg dcfg none 0 0 st).1

theorem dequeAppend_length {α : Type*} (m : ℕ) (l : List α) (x : α) :
    (dequeAppend m l x).length = min (l.length + 1) m := by
  simp [dequeAppend, length_rtake, Nat.min_comm]

theorem rtake_append_replicate {α : Type*} (l : List α) (s : α) (j m : ℕ) :
    ∃ l', rtake m (l ++ List.replicate j s) = l' ++ List.replicate (min j m) s := by
  refine ⟨l.drop (l.length + j - m), ?_⟩
  unfold rtake
  rw [List.length_append, List.length_replicate, List.drop_append_eq_append_drop,
    List.drop_replicate]
  congr 2
  omega

theorem countP_suffix_replicate {α : Type*} (p : α → Bool) (l : List α) (s : α)
    (j : ℕ) (hp : p s = true) :
    j ≤ (l ++ List.replicate j s).countP p := by
  rw [List.countP_append]
  have : (List.replicate j s).countP p = j := by
    induction j with
    | zero => rfl
    | succ n ih => simp [List.replicate_succ, List.countP_cons, ih, hp]
  omega

theorem lostStep_state (cfg : TrackingConfig) (dcfg : DroneConfig)
    (h : ℤ) (now : ℚ) (st : TrackerState) :
    (computeControl cfg dcfg none h now st).1 =
      { st with center_history := dequeAppend dcfg.frame_width st.center_history (0, 0) } := rfl

theorem runLost_direction (cfg : TrackingConfig) (dcfg : DroneConfig) (n : ℕ) :
    ∀ st : TrackerState,
      (runLost cfg dcfg n st).last_known_direction = st.last_known_direction := by
  induction n with
  | zero => intro st; rfl
  | succ n ih =>
    intro st
    rw [runLost, ih, lostStep_state]

theorem runLost_history (cfg : TrackingConfig) (dcfg : DroneConfig) (n : ℕ) :
    ∀ (st : TrackerState) (k : ℕ),
      (∃ l', st.center_history =
        l' ++ List.replicate (min k dcfg.frame_width) ((0, 0) : ℤ × ℤ)) →
      ∃ l', (runLost cfg dcfg n st).center_history =
        l' ++ List.replicate (min (k + n) dcfg.frame_width) ((0, 0) : ℤ × ℤ) := by
  induction n with
  | zero => intro st k hk; simpa [runLost] using hk
  | succ n ih =>
    intro st k hk
    obtain ⟨l', hl⟩ := hk
    rw [runLost]
    have hstep : ((computeControl cfg dcfg none 0 0 st).1).center_history =
        dequeAppend dcfg.frame_width st.center_history (0, 0) := by
      rw [lostStep_state]
    have happ : dequeAppend dcfg.frame_width st.center_history ((0, 0) : ℤ × ℤ) =
        rtake dcfg.frame_width
          (l' ++ List.replicate (min k dcfg.frame_width + 1) ((0, 0) : ℤ × ℤ)) := by
      rw [dequeAppend, hl, List.replicate_succ', ← List.append_assoc]
    obtain ⟨l'', hl''⟩ := rtake_append_replicate l' ((0, 0) : ℤ × ℤ)
      (min k dcfg.frame_width + 1) dcfg.frame_width
    have hmin : min (min k dcfg.frame_width + 1) dcfg.frame_width =
        min (k + 1) dcfg.frame_width := by omega
    have := ih ((computeControl cfg dcfg none 0 0 st).1) (k + 1)
      ⟨l'', by rw [hstep, happ, hl'', hmin]⟩
    have harith : k + 1 + n = k + (n + 1) := by omega
    rwa [harith] at this

/-- Shared between C4 and C10: from any state whatsoever, feeding
`lost_face_threshold` absent-observation cycles and then one more makes
that final call return all axes 0 and a yaw of `search_rotation_speed`
signed by the state's `last_known_direction`, provided the threshold is
smaller than both the 20-entry counting window and the deque capacity. -/
theorem lost_search_signed (cfg : TrackingConfig) (dcfg : DroneConfig)
    (st : TrackerState)
    (h20 : cfg.lost_face_threshold < centerHistorySize)
    (hm : cfg.lost_face_threshold < dcfg.frame_width) (h : ℤ) (now : ℚ) :
    (computeControl cfg dcfg none h now
        (runLost cfg dcfg cfg.lost_face_threshold st)).2 =
      (0, 0, 0,
        if st.last_known_direction = "+" then cfg.search_rotation_speed
        else -cfg.search_rotation_speed) := by
  set n := cfg.lost_face_threshold with hn
  obtain ⟨l', hl⟩ := runLost_history cfg dcfg n st 0
    ⟨st.center_history, by simp⟩
  have hminn : min (0 + n) dcfg.frame_width = n := by omega
  rw [hminn] at hl
  set stn := runLost cfg dcfg n st with hstn
  have hdirn : stn.last_known_direction = st.last_known_direction := by
    rw [hstn, runLost_direction]
  -- the final call appends one more sentinel …
  have happ : dequeAppend dcfg.frame_width stn.center_history ((0, 0) : ℤ × ℤ) =
      rtake dcfg.frame_width (l' ++ List.replicate (n + 1) ((0, 0) : ℤ × ℤ)) := by
    rw [dequeAppend, hl, List.replicate_succ', ← List.append_assoc]
  obtain ⟨l'', hl''⟩ := rtake_append_replicate l' ((0, 0) : ℤ × ℤ) (n + 1) dcfg.frame_width
  have hmin1 : min (n + 1) dcfg.frame_width = n + 1 := by omega
  rw [hmin1] at hl''
  -- … and the last-20 window then holds more than `lost_face_threshold` sentinels
  obtain ⟨l₃, hl₃⟩ := rtake_append_replicate l'' ((0, 0) : ℤ × ℤ) (n + 1) centerHistorySize
  have hmin2 : min (n + 1) centerHistorySize = n + 1 := by
    have := h20
    omega
  rw [hmin2] at hl₃
  have hcount : n <
      (rtake centerHistorySize
        (dequeAppend dcfg.frame_width stn.center_history ((0, 0) : ℤ × ℤ))).countP isLostEntry := by
    rw [happ, hl'', hl₃]
    have := countP_suffix_replicate isLostEntry l₃ ((0, 0) : ℤ × ℤ) (n + 1) (by decide)
    omega
  show (handleLost cfg dcfg stn).2 = _
  have hout : (handleLost cfg dcfg stn).2 =
      if (rtake centerHistorySize
            (dequeAppend dcfg.frame_width stn.center_history ((0, 0) : ℤ × ℤ))).countP isLostEntry >
          cfg.lost_face_threshold then
        ((0 : ℤ), (0 : ℤ), (0 : ℤ),
          if stn.last_known_direction = "+" then cfg.search_rotation_speed
          else -cfg.search_rotation_speed)
      else ((0 : ℤ), (0 : ℤ), (0 : ℤ), (0 : ℤ)) := rfl
  rw [hout, if_pos hcount, hdirn]

/-- Specialization of `lost_search_signed` to right-direction states. -/
theorem lost_search_plus (cfg : TrackingConfig) (dcfg : DroneConfig)
    (st : TrackerState) (hdir : st.last_known_direction = "+")
    (h20 : cfg.lost_face_threshold < centerHistorySize)
    (hm : cfg.lost_face_threshold < dcfg.frame_width) (h : ℤ) (now : ℚ) :
    (computeControl cfg dcfg none h now
        (runLost cfg dcfg cfg.lost_face_threshold st)).2 =
      (0, 0, 0, cfg.search_rotation_speed) := by
  have hs := lost_search_signed cfg dcfg st h20 hm h now
  rw [hdir, if_pos rfl] at hs
  exact hs

/-- C4: if `last_known_direction` is `"+"` (subject last seen right of
the midline) and `compute_control` is fed an absent observation for
`lost_face_threshold + 1` consecutive cycles, the final call returns
`(lr, fb, ud, yaw) = (0, 0, 0, +search_rotation_speed)` — a positive
(rightward) yaw when the configured speed is positive.  Requires the
threshold to be below the fixed 20-entry counting window and the deque
capacity, as with the defaults (15 < 20 < 960). -/
theorem C4_lost_search_right (cfg : TrackingConfig) (dcfg : DroneConfig)
    (st : TrackerState) (hdir : st.last_known_direction = "+")
    (h20 : cfg.lost_face_threshold < centerHistorySize)
    (hm : cfg.lost_face_threshold < dcfg.frame_width)
    (hspeed : 0 < cfg.search_rotation_speed) (h : ℤ) (now : ℚ) :
    (computeControl cfg dcfg none h now
        (runLost cfg dcfg cfg.lost_face_threshold st)).2 =
      (0, 0, 0, cfg.search_rotation_speed) ∧
    0 < (computeControl cfg dcfg none h now
        (runLost cfg dcfg cfg.lost_face_threshold st)).2.2.2.2 := by
  have heq := lost_search_plus cfg dcfg st hdir h20 hm h now
  exact ⟨heq, by rw [heq]; exact hspeed⟩

/-- C4 witness: defaults (threshold 15, window 20, deque 960, speed 40),
starting from the freshly constructed tracker. -/
theorem C4_witness :
    (computeControl defaultTrackingConfig defaultDroneConfig none 0 0
        (runLost defaultTrackingConfig defaultDroneConfig 15 initTracker)).2 =
      (0, 0, 0, 40) ∧
    0 < (computeControl defaultTrackingConfig defaultDroneConfig none 0 0
        (runLost defaultTrackingConfig defaultDroneConfig 15 initTracker)).2.2.2.2 :=
  C4_lost_search_right defaultTrackingConfig defaultDroneConfig initTracker rfl
    (by decide) (by decide) (by decide) 0 0

/-- C2 (counterexample): with the default configuration
(`frame_width = 960`), 21 absent-observation cycles leave 21 entries in
the center history — more than the claimed bound of 20. -/
theorem C2_counterexample :
    (runLost defaultTrackingConfig defaultDroneConfig 21 initTracker).center_history.length = 21 ∧
    ¬(runLost defaultTrackingConfig defaultDroneConfig 21
        initTracker).center_history.length ≤ 20 := by
  decide

/-- C2 (amended): every `compute_control` call — with or without an
observation — appends exactly one entry to the center history, whose
length is bounded by the deque capacity `frame_width` (not by 20; the
fixed size 20 is only the window used when counting sentinels for
lost-face detection). -/
theorem C2_history_bound (cfg : TrackingConfig) (dcfg : DroneConfig)
    (face : Option FaceInfo) (h : ℤ) (now : ℚ) (st : TrackerState) :
    ((computeControl cfg dcfg face h now st).1).center_history.length =
      min (st.center_history.length + 1) dcfg.frame_width ∧
    ((computeControl cfg dcfg face h now st).1).center_history.length ≤
      dcfg.frame_width := by
  have hlen : ((computeControl cfg dcfg face h now st).1).center_history.length =
      min (st.center_history.length + 1) dcfg.frame_width := by
    cases face with
    | none => rw [lostStep_state]; exact dequeAppend_length _ _ _
    | some f => exact dequeAppend_length _ _ _
  exact ⟨hlen, by rw [hlen]; exact Nat.min_le_right _ _⟩

/-- C9: `compute_control` is independent of the altitude the drone
reports — the source reads the height but its check's body is `pass` —
and the height-ceiling override is performed by the consumer loop, which
substitutes the forced descent `(0, 0, -10, 0)` whenever the altitude
exceeds `height_limit`. -/
theorem C9_altitude_noninterference :
    (∀ (cfg : TrackingConfig) (dcfg : DroneConfig) (face : Option FaceInfo)
        (h1 h2 : ℤ) (now : ℚ) (st : TrackerState),
      computeControl cfg dcfg face h1 now st = computeControl cfg dcfg face h2 now st) ∧
    (∀ (height limit : ℤ) (ctl : ℤ × ℤ × ℤ × ℤ), limit < height →
      heightOverride height limit ctl = (0, 0, -10, 0)) := by
  constructor
  · intro cfg dcfg face h1 h2 now st
    rfl
  · intro height limit ctl hgt
    rw [heightOverride, if_pos hgt]

/-- C9 witness: two heights straddling the default 220 cm ceiling. -/
theorem C9_witness :
    computeControl defaultTrackingConfig defaultDroneConfig none 5 0 initTracker =
      computeControl defaultTrackingConfig defaultDroneConfig none 480 0 initTracker ∧
    heightOverride 221 220 (1, 2, 3, 4) = (0, 0, -10, 0) :=
  ⟨C9_altitude_noninterference.1 defaultTrackingConfig defaultDroneConfig none 5 480 0 initTracker,
   C9_altitude_noninterference.2 221 220 (1, 2, 3, 4) (by decide)⟩

/-- C10: for every tracker state, `FaceTracker.reset` restores both PID
states and empties the center history but leaves `last_known_direction`
exactly as it was, so a search after a post-maneuver reset
(threshold-many absent cycles and one more) still rotates toward the side
recorded before the reset — `+search_rotation_speed` for `"+"` (right)
and `-search_rotation_speed` otherwise (`"-"`, left). -/
theorem C10_reset_keeps_direction (st : TrackerState) :
    (resetTracker st).last_known_direction = st.last_known_direction ∧
    (resetTracker st).yawPid = initPid ∧
    (resetTracker st).vertPid = initPid ∧
    (resetTracker st).center_history = [] ∧
    ∀ (cfg : TrackingConfig) (dcfg : DroneConfig),
      cfg.lost_face_threshold < centerHistorySize →
      cfg.lost_face_threshold < dcfg.frame_width →
      (computeControl cfg dcfg none 0 0
          (runLost cfg dcfg cfg.lost_face_threshold (resetTracker st))).2 =
        (0, 0, 0,
          if st.last_known_direction = "+" then cfg.search_rotation_speed
          else -cfg.search_rotation_speed) :=
  ⟨rfl, rfl, rfl, rfl, fun cfg dcfg h20 hm =>
    lost_search_signed cfg dcfg (resetTracker st) h20 hm 0 0⟩

/-- C10 witness: the defaults, from a tracker that last saw the subject
on the left (`"-"`): the direction survives the reset and the post-reset
search rotates left at `-40`. -/
theorem C10_witness :
    (resetTracker ⟨initPid, initPid, [], "-"⟩).last_known_direction = "-" ∧
    (computeControl defaultTrackingConfig defaultDroneConfig none 0 0
        (runLost defaultTrackingConfig defaultDroneConfig 15
          (resetTracker ⟨initPid, initPid, [], "-"⟩))).2 =
      (0, 0, 0, -40) := by
  have h := C10_reset_keeps_direction ⟨initPid, initPid, [], "-"⟩
  have h5 := h.2.2.2.2 defaultTrackingConfig defaultDroneConfig (by decide) (by decide)
  rw [if_neg (by decide)] at h5
  exact ⟨h.1, h5.trans (by decide)⟩

/- ## Gesture state machine (src/followme/gesture.py) -/

/-- The fields of `GestureConfig` that `SnapDetector` reads
(config.py defaults 50000 and 0.7 s). -/
structure GestureConfig where
  snap_threshold : ℤ
  snap_time_window : ℚ
deriving DecidableEq

/-- Mutable state of `SnapDetector`: `_valid`, `_snap_count`,
`_prev_snap_time`. -/
structure SnapState where
  valid : Bool
  snap_count : ℕ
  prev_snap_time : Option ℚ
deriving DecidableEq

/-- Fresh `SnapDetector` state (also the state after `reset()`). -/
def initSnapState : SnapState := ⟨true, 0, none⟩

/-- Model of `SnapDetector._detect_edge`: returns the new `_valid` flag and
whether a rising edge was detected.  `diff > threshold` while armed
fires and disarms; `diff < threshold` while disarmed re-arms. -/
def detectEdge (threshold : ℤ) (valid : Bool) (diff : ℤ) : Bool × Bool :=
  if diff > threshold ∧ valid = true then (false, true)
  else if diff < threshold ∧ valid = false then (true, false)
  else (valid, false)

/-- Model of `SnapDetector.process_reading(sensor1, sensor2)`; `now` is the
`time.time()` reading of the call.  A detected snap increments the count
(starting a burst at 1) and timestamps it, returning `none`; otherwise an
open burst whose last snap is older than `snap_time_window` is emitted
and the count/time reset. -/
def processReading (cfg : GestureConfig) (st : SnapState)
    (sensor1 sensor2 : ℤ) (now : ℚ) : SnapState × Option ℕ :=
  let diff := sensor2 - sensor1
  let vs := detectEdge cfg.snap_threshold st.valid diff
  let st1 : SnapState := { st with valid := vs.1 }
  if vs.2 then
    let c := if st1.snap_count = 0 then 1 else st1.snap_count + 1
    ({ st1 with snap_count := c, prev_snap_time := some now }, none)
  else
    match st1.prev_snap_time with
    | some prev =>
      if st1.snap_count > 0 then
        if now - prev > cfg.snap_time_window then
          ({ st1 with snap_count := 0, prev_snap_time := none }, some st1.snap_count)
        else (st1, none)
      else (st1, none)
    | none => (st1, none)

/-- Run `process_reading` over a list of `((sensor1, sensor2), now)`
inputs, collecting the per-call results. -/
def runReadings (cfg : GestureConfig) (st : SnapState) :
    List ((ℤ × ℤ) × ℚ) → SnapState × List (Option ℕ)
  | [] => (st, [])
  | (p, t) :: rest =>
    let r := processReading cfg st p.1 p.2 t
    let rr := runReadings cfg r.1 rest
    (rr.1, r.2 :: rr.2)

theorem runReadings_append (cfg : GestureConfig) (l₁ l₂ : List ((ℤ × ℤ) × ℚ)) :
    ∀ st : SnapState,
      runReadings cfg st (l₁ ++ l₂) =
        ((runReadings cfg (runReadings cfg st l₁).1 l₂).1,
         (runReadings cfg st l₁).2 ++ (runReadings cfg (runReadings cfg st l₁).1 l₂).2) := by
  induction l₁ with
  | nil => intro st; simp [runReadings]
  | cons x rest ih =>
    intro st
    obtain ⟨p, t⟩ := x
    simp [runReadings, ih]

/-- One middle segment of a burst: the below-threshold reading that
re-arms the gate, followed by the next above-threshold spike. -/
structure BurstStep where
  low : ℤ × ℤ
  lowTime : ℚ
  high : ℤ × ℤ
  highTime : ℚ

/-- Flatten burst segments into the reading sequence they denote. -/
def burstFlatten : List BurstStep → List ((ℤ × ℤ) × ℚ)
  | [] => []
  | b :: rest => (b.low, b.lowTime) :: (b.high, b.highTime) :: burstFlatten rest

/-- Well-formedness of a burst's middle segments relative to the time
`s` of the previous spike: each re-arm reading is below threshold and
within the time window of the previous spike (implied by consecutive
spikes being less than a window apart), and each spike is above
threshold. -/
def burstOK (cfg : GestureConfig) : ℚ → List BurstStep → Prop
  | _, [] => True
  | s, b :: rest =>
    b.low.2 - b.low.1 < cfg.snap_threshold ∧
    b.lowTime - s ≤ cfg.snap_time_window ∧
    b.high.2 - b.high.1 > cfg.snap_threshold ∧
    burstOK cfg b.highTime rest

/-- Time of the last spike of the burst. -/
def lastSpike (s : ℚ) : List BurstStep → ℚ
  | [] => s
  | b :: rest => lastSpike b.highTime rest

theorem run_burst_chain (cfg : GestureConfig) (steps : List BurstStep) :
    ∀ (s : ℚ) (k : ℕ), burstOK cfg s steps →
      runReadings cfg ⟨false, k + 1, some s⟩ (burstFlatten steps) =
        (⟨false, k + 1 + steps.length, some (lastSpike s steps)⟩,
         List.replicate (2 * steps.length) none) := by
  induction steps with
  | nil => intro s k _; rfl
  | cons b rest ih =>
    intro s k hok
    obtain ⟨hlo, hwin, hhi, hrest⟩ := hok
    have hnlo : ¬(b.low.2 - b.low.1 > cfg.snap_threshold) := by omega
    have hnw : ¬(b.lowTime - s > cfg.snap_time_window) := not_lt.mpr hwin
    have hlowStep : processReading cfg ⟨false, k + 1, some s⟩ b.low.1 b.low.2 b.lowTime =
        (⟨true, k + 1, some s⟩, none) := by
      simp [processReading, detectEdge, hlo, hnlo, hnw]
    have hhighStep : processReading cfg ⟨true, k + 1, some s⟩ b.high.1 b.high.2 b.highTime =
        (⟨false, k + 1 + 1, some b.highTime⟩, none) := by
      simp [processReading, detectEdge, hhi]
    rw [burstFlatten]
    simp only [runReadings, hlowStep, hhighStep]
    rw [ih b.highTime (k + 1) hrest]
    have hnum : k + 1 + 1 + rest.length = k + 1 + (b :: rest).length := by
      rw [List.length_cons]
      omega
    have hrep : (none : Option ℕ) :: none :: List.replicate (2 * rest.length) none =
        List.replicate (2 * (b :: rest).length) none := by
      rw [List.length_cons]
      have h2 : 2 * (rest.length + 1) = 2 * rest.length + 1 + 1 := by omega
      rw [h2, List.replicate_succ, List.replicate_succ]
    simp only [lastSpike, ← hnum, ← hrep]

/-- C5: for every `N = steps.length + 1 ≥ 1`, a reading sequence of an
initial above-threshold spike, `N - 1` further spikes each preceded by a
re-arming below-threshold reading within the window of the previous
spike, and a final below-threshold reading more than `time_window` after
the last spike, makes `process_reading` return `none` on every call
except the last, which emits exactly `N`; the detector ends reset. -/
theorem C5_burst_count (cfg : GestureConfig) (first : (ℤ × ℤ) × ℚ)
    (steps : List BurstStep) (fin : (ℤ × ℤ) × ℚ)
    (h1 : first.1.2 - first.1.1 > cfg.snap_threshold)
    (hok : burstOK cfg first.2 steps)
    (h2 : fin.1.2 - fin.1.1 < cfg.snap_threshold)
    (h3 : fin.2 - lastSpike first.2 steps > cfg.snap_time_window) :
    runReadings cfg initSnapState (first :: (burstFlatten steps ++ [fin])) =
      (initSnapState,
       List.replicate (2 * steps.length + 1) none ++ [some (steps.length + 1)]) := by
  obtain ⟨p, t⟩ := first
  obtain ⟨q, f⟩ := fin
  simp only at h1 h2 h3
  have hfirstStep : processReading cfg initSnapState p.1 p.2 t =
      (⟨false, 0 + 1, some t⟩, none) := by
    simp [processReading, detectEdge, initSnapState, h1]
  have hnq : ¬(q.2 - q.1 > cfg.snap_threshold) := by omega
  have hfinStep : processReading cfg ⟨false, 0 + 1 + steps.length, some (lastSpike t steps)⟩
      q.1 q.2 f = (initSnapState, some (steps.length + 1)) := by
    simp [processReading, detectEdge, h2, hnq, h3, initSnapState]
    omega
  simp only [runReadings, hfirstStep]
  rw [runReadings_append, run_burst_chain cfg steps t 0 hok]
  simp only [runReadings, hfinStep]
  simp only [Prod.mk.injEq, true_and]
  rw [← List.cons_append, ← List.replicate_succ]

/-- C5 witness: two spikes (threshold 1, window 2) at times 0 and 2 with
a re-arm at time 1 and a final quiet reading at time 5: three `none`s
then one emission of 2. -/
theorem C5_witness :
    runReadings ⟨1, 2⟩ initSnapState
        [((0, 2), 0), ((0, 0), 1), ((0, 2), 2), ((0, 0), 5)] =
      (initSnapState, List.replicate (2 * [(⟨(0, 0), 1, (0, 2), 2⟩ : BurstStep)].length + 1) none ++
        [some ([(⟨(0, 0), 1, (0, 2), 2⟩ : BurstStep)].length + 1)]) :=
  C5_burst_count ⟨1, 2⟩ ((0, 2), 0) [⟨(0, 0), 1, (0, 2), 2⟩] ((0, 0), 5)
    (by norm_num) ⟨by norm_num, by norm_num, by norm_num, trivial⟩
    (by norm_num) (by show (5 : ℚ) - 2 > 2; norm_num)


/-- Count-detections runner over `_detect_edge` alone: thread the
`_valid` flag through a list of diffs and record each detection. -/
def runEdges (threshold : ℤ) (valid : Bool) : List ℤ → Bool × List Bool
  | [] => (valid, [])
  | d :: rest =>
    let r := detectEdge threshold valid d
    let rr := runEdges threshold r.1 rest
    (rr.1, r.2 :: rr.2)

theorem runEdges_disarmed (threshold : ℤ) (diffs : List ℤ)
    (h : ∀ d ∈ diffs, threshold ≤ d) :
    runEdges threshold false diffs = (false, List.replicate diffs.length false) := by
  induction diffs with
  | nil => rfl
  | cons d rest ih =>
    have hd := h d (List.mem_cons_self _ _)
    have hstep : detectEdge threshold false d = (false, false) := by
      rw [detectEdge, if_neg (by simp), if_neg (by simp; omega)]
    rw [runEdges]
    rw [hstep, ih (fun x hx => h x (List.mem_cons_of_mem _ hx))]
    rfl

/-- C6: over any run of diffs that never drop strictly below the
threshold, the hysteresis gate detects at most one edge from any starting
state, and none at all once disarmed — the gate stays disarmed until
some reading has `diff < threshold`. -/
theorem C6_hysteresis (threshold : ℤ) (v : Bool) (diffs : List ℤ)
    (h : ∀ d ∈ diffs, threshold ≤ d) :
    (runEdges threshold v diffs).2.count true ≤ 1 ∧
    (runEdges threshold false diffs).2.count true = 0 := by
  constructor
  · induction diffs generalizing v with
    | nil => simp [runEdges]
    | cons d rest ih =>
      have hd := h d (List.mem_cons_self _ _)
      have hrest : ∀ x ∈ rest, threshold ≤ x := fun x hx => h x (List.mem_cons_of_mem _ hx)
      cases v with
      | false =>
        rw [runEdges]
        have hstep : detectEdge threshold false d = (false, false) := by
          rw [detectEdge, if_neg (by simp), if_neg (by simp; omega)]
        rw [hstep]
        simpa [List.count_cons] using ih (fun x hx => hrest x hx) (v := false)
      | true =>
        rw [runEdges]
        rcases lt_or_le threshold d with hgt | hle
        · have hstep : detectEdge threshold true d = (false, true) := by
            rw [detectEdge, if_pos ⟨hgt, rfl⟩]
          rw [hstep]
          have hz := runEdges_disarmed threshold rest hrest
          simp [hz, List.count_cons, List.count_replicate]
        · have heq : d = threshold := le_antisymm hle hd
          have hstep : detectEdge threshold true d = (true, false) := by
            rw [detectEdge, if_neg (by simp; omega), if_neg (by simp)]
          rw [hstep]
          simpa [List.count_cons] using ih (fun x hx => hrest x hx) (v := true)
  · rw [runEdges_disarmed threshold diffs h]
    simp [List.count_replicate]

/-- C6 witness: threshold 5 with diffs `[9, 9, 7, 6]` — all at or above
threshold; only the first fires. -/
theorem C6_witness :
    (runEdges 5 true [9, 9, 7, 6]).2.count true ≤ 1 ∧
    (runEdges 5 false [9, 9, 7, 6]).2.count true = 0 :=
  C6_hysteresis 5 true [9, 9, 7, 6] (by decide)

end FollowMe
